import Mathlib

/-!
Verification development for the openshift-catalogs-viewer core engines
(server in `cursor-webinterface/public/app.js`):

* the FBC multi-document decoder (`parseFBCDirectory`'s per-file JSON logic),
* the catalog graph builder (`extractChannelsAndVersions`),
* the version resolver (latest = `versions[0]` per channel),
* the config synthesizer (`generateImageSetConfig`),
* the config parser (`parseImageSetConfig`),
* the config reconciler (`POST /api/update-imageset-config`).

JavaScript data is embedded with `Option` for possibly-missing fields;
JavaScript truthiness on strings (`undefined` and `""` are falsy) is made
explicit at each use site.
-/

/-! ### Generic comparator-based insertion sort

`Array.prototype.sort(cmp)` with a consistent comparator produces a list
sorted with respect to the comparator.  We model it with an insertion sort
parameterised by a boolean "comes no later than" relation `le`. -/

def insertLe {α : Type} (le : α → α → Bool) (x : α) : List α → List α
  | [] => [x]
  | y :: ys => if le x y then x :: y :: ys else y :: insertLe le x ys

def sortLe {α : Type} (le : α → α → Bool) : List α → List α
  | [] => []
  | x :: xs => insertLe le x (sortLe le xs)

/-! ### The numeric-aware, case-insensitive version comparator

The source sorts each channel's versions with
`(a, b) => b.localeCompare(a, undefined, { numeric: true, sensitivity: 'base' })`,
i.e. descending under a collation that compares maximal digit runs by
numeric magnitude and the remaining characters case-insensitively
(`sensitivity: 'base'`).  We embed the collation as a key function: a string
maps to its list of tokens, a token being either a digit run (compared by
value, ordered before non-digit runs) or a run of case-folded characters. -/

def VerTok : Type := ℕ ⊕ₗ (List Char)

instance : LinearOrder VerTok := by
  unfold VerTok; infer_instance

instance : DecidableEq VerTok := by
  unfold VerTok; infer_instance

def verTokNum (ds : List Char) : VerTok :=
  toLex (Sum.inl (ds.foldl (fun a c => a * 10 + (c.toNat - 48)) 0))

def verTokStr (s : List Char) : VerTok := toLex (Sum.inr s)

/-- One step of the tokenizer: prepend character `c` to the token list of the
remaining suffix, merging it into a leading run of the same kind. -/
def verTokStep (c : Char) (ts : List (List Char × Bool)) : List (List Char × Bool) :=
  match ts with
  | (run, isNum) :: rest =>
    if c.isDigit = isNum then (c :: run, isNum) :: rest
    else ([c], c.isDigit) :: (run, isNum) :: rest
  | [] => [([c], c.isDigit)]

def verRuns (s : String) : List (List Char × Bool) :=
  s.data.foldr verTokStep []

def verKey (s : String) : List VerTok :=
  (verRuns s).map (fun r =>
    if r.2 then verTokNum r.1 else verTokStr (r.1.map Char.toLower))

/-- Descending comparator order: `a` comes no later than `b` when the
collation puts `a` at or above `b`. -/
def verDescLe (a b : String) : Bool := decide (verKey b ≤ verKey a)

/-- The sort call `versions.sort((a, b) => b.localeCompare(a, undefined, ...))`. -/
def versionSortDesc (l : List String) : List String := sortLe verDescLe l

/-! ### Catalog objects and the graph builder (`extractChannelsAndVersions`)

A `CatObj` embeds one parsed catalog object as consumed by the builder:
only the fields the builder probes are kept, each `Option`-valued when the
JavaScript may find it `undefined`.  Names compared against non-empty
strings are embedded as plain strings (`""` plays the role of the falsy
`undefined`/`""`, which the code treats identically at every probe). -/

structure PropValue where
  version : Option String
  deriving DecidableEq, Repr

structure CatProp where
  type : String
  value : Option PropValue
  deriving DecidableEq, Repr

structure CatEntry where
  name : String
  deriving DecidableEq, Repr

structure CatObj where
  schema : Option String
  name : String
  defaultChannel : Option String
  entries : Option (List CatEntry)
  properties : Option (List CatProp)
  deriving DecidableEq, Repr

structure ChanData where
  name : String
  versions : List String
  deriving DecidableEq, Repr

structure CatalogGraph where
  defaultChannel : Option String
  channels : List ChanData
  deriving DecidableEq, Repr

/-- JavaScript string truthiness of a possibly-missing string. -/
def jsTruthy (o : Option String) : Bool := o.getD "" ≠ ""

/-- Embeds `bundleVersions.set(name, ver)`: a JS `Map` keeps the insertion position
of an existing key and overwrites its value. -/
def mapSet (m : List (String × String)) (k v : String) : List (String × String) :=
  if m.any (fun p => p.1 = k) then m.map (fun p => if p.1 = k then (k, v) else p)
  else m ++ [(k, v)]

def mapGet (m : List (String × String)) (k : String) : Option String :=
  (m.find? (fun p => p.1 = k)).map (fun p => p.2)

/-- The bundle-name → version lookup built from all `olm.bundle` objects:
the first property with `type == "olm.package"` supplies `value.version`,
recorded only when name, property, value and version are all truthy. -/
def bundleVersionsOf (objs : List CatObj) : List (String × String) :=
  (objs.filter (fun o => o.schema = some "olm.bundle")).foldl
    (fun m b =>
      if b.name ≠ "" then
        match b.properties with
        | some props =>
          match props.find? (fun p => p.type = "olm.package") with
          | some prop =>
            match prop.value with
            | some v =>
              match v.version with
              | some ver => if ver ≠ "" then mapSet m b.name ver else m
              | none => m
            | none => m
          | none => m
        | none => m
      else m) []

/-- Push `v` at the end of the version list unless already present
(`!channelData.versions.includes(v)`). -/
def pushDedup (vs : List String) (v : String) : List String :=
  if vs.contains v then vs else vs ++ [v]

/-- Process one channel entry: a truthy entry name is resolved through the
bundle lookup; a truthy version is appended, otherwise the bundle name
itself is the version surrogate. -/
def addEntry (bv : List (String × String)) (vs : List String) (e : CatEntry) :
    List String :=
  if e.name ≠ "" then
    let ver := (mapGet bv e.name).getD ""
    if ver ≠ "" then pushDedup vs ver else pushDedup vs e.name
  else vs

def addEntries (bv : List (String × String)) (vs : List String)
    (entries : Option (List CatEntry)) : List String :=
  match entries with
  | some es => es.foldl (addEntry bv) vs
  | none => vs

/-- Process one `olm.channel` object against the insertion-ordered channel
map (`channels: Map`): initialize the channel on first sight, then append
its entries' versions. -/
def addChannelObj (bv : List (String × String)) (chs : List ChanData)
    (co : CatObj) : List ChanData :=
  if co.name = "" then chs
  else
    let chs' := if chs.any (fun c => c.name = co.name) then chs
                else chs ++ [⟨co.name, []⟩]
    chs'.map (fun c =>
      if c.name = co.name then ⟨c.name, addEntries bv c.versions co.entries⟩
      else c)

/-- The graph builder `extractChannelsAndVersions(parsedObjects)`. -/
def extractChannelsAndVersions (objs : List CatObj) : CatalogGraph :=
  let packageObj := objs.find? (fun o => o.schema = some "olm.package")
  let dc0 : Option String :=
    match packageObj with
    | some p => if jsTruthy p.defaultChannel then p.defaultChannel else none
    | none => none
  let bv := bundleVersionsOf objs
  let channelObjects := objs.filter (fun o => o.schema = some "olm.channel")
  let chs := channelObjects.foldl (addChannelObj bv) []
  let sorted := chs.map (fun c => ⟨c.name, versionSortDesc c.versions⟩)
  { defaultChannel :=
      match dc0 with
      | some d => some d
      | none => (sorted.head?).map (fun c => c.name)
    channels := sorted }

/-- The version resolver: `channels.find(c => c.name === name).versions[0]`
guarded by existence and non-emptiness (`/api/get-latest-versions`). -/
def latest (g : CatalogGraph) (name : String) : Option String :=
  match g.channels.find? (fun c => c.name = name) with
  | some c => c.versions.head?
  | none => none

/-! ### The multi-document decoder's JSON recovery path

`parseFBCDirectory` parses each `.json` file by (1) `JSON.parse` on the
whole content, (2) on failure a character-walk over the trimmed content that
tracks brace/bracket depth and string/escape state to cut out candidate
spans, parsing each independently and resynchronising at the next brace on
a failed candidate, (3) on an empty scan, newline splitting.  A file on
which all three fail is skipped with a logged warning.

`JSON.parse` itself is embedded as a fuelled recursive-descent parser for
JSON values (numbers are kept as lexemes: no claim inspects them). -/

def lbrace : Char := Char.ofNat 123

def rbrace : Char := Char.ofNat 125

inductive JsonVal where
  | null : JsonVal
  | bool (b : Bool) : JsonVal
  | num (lexeme : List Char) : JsonVal
  | str (s : List Char) : JsonVal
  | arr (xs : List JsonVal) : JsonVal
  | obj (kvs : List (List Char × JsonVal)) : JsonVal

/-- The four whitespace characters `JSON.parse` accepts between tokens. -/
def jsonWs (c : Char) : Bool := c = ' ' ∨ c = '\t' ∨ c = '\n' ∨ c = '\r'

def skipJsonWs : List Char → List Char
  | [] => []
  | c :: rest => if jsonWs c then skipJsonWs rest else c :: rest

def isHexDig (c : Char) : Bool :=
  c.isDigit ∨ ('a' ≤ c ∧ c ≤ 'f') ∨ ('A' ≤ c ∧ c ≤ 'F')

def hexVal (c : Char) : Nat :=
  if c.isDigit then c.toNat - 48
  else if 'a' ≤ c ∧ c ≤ 'f' then c.toNat - 87
  else c.toNat - 55

/-- JSON string body after the opening quote: returns content and rest. -/
def parseJsonStr : Nat → List Char → Option (List Char × List Char)
  | 0, _ => none
  | _, [] => none
  | fuel + 1, c :: rest =>
    if c = '"' then some ([], rest)
    else if c = '\\' then
      match rest with
      | [] => none
      | e :: rest2 =>
        let dec : Option (Char × List Char) :=
          if e = '"' then some ('"', rest2)
          else if e = '\\' then some ('\\', rest2)
          else if e = '/' then some ('/', rest2)
          else if e = 'b' then some ('\x08', rest2)
          else if e = 'f' then some ('\x0c', rest2)
          else if e = 'n' then some ('\n', rest2)
          else if e = 'r' then some ('\r', rest2)
          else if e = 't' then some ('\t', rest2)
          else if e = 'u' then
            match rest2 with
            | h1 :: h2 :: h3 :: h4 :: rest3 =>
              if isHexDig h1 ∧ isHexDig h2 ∧ isHexDig h3 ∧ isHexDig h4 then
                some (Char.ofNat
                  (((hexVal h1 * 16 + hexVal h2) * 16 + hexVal h3) * 16 + hexVal h4),
                  rest3)
              else none
            | _ => none
          else none
        match dec with
        | some (ch, r) => (parseJsonStr fuel r).map (fun p => (ch :: p.1, p.2))
        | none => none
    else if c.toNat < 32 then none
    else (parseJsonStr fuel rest).map (fun p => (c :: p.1, p.2))

def takeDigits : List Char → (List Char × List Char)
  | [] => ([], [])
  | c :: rest =>
    if c.isDigit then
      let (ds, r) := takeDigits rest
      (c :: ds, r)
    else ([], c :: rest)

/-- JSON number grammar; the consumed lexeme is the value. -/
def parseJsonNum (l : List Char) : Option (List Char × List Char) :=
  let (sign, l1) := match l with
    | '-' :: r => (['-'], r)
    | _ => (([] : List Char), l)
  match l1 with
  | [] => none
  | c :: _ =>
    if ¬ c.isDigit then none
    else
      let (ints, r1) := takeDigits l1
      if c = '0' ∧ ints.length > 1 then none
      else
        let (frac, r2) : List Char × List Char :=
          match r1 with
          | '.' :: fr =>
            let (ds, r) := takeDigits fr
            if ds = [] then (['!'], fr) else ('.' :: ds, r)
          | _ => ([], r1)
        if frac = ['!'] then none
        else
          let (expo, r3) : List Char × List Char :=
            match r2 with
            | 'e' :: er =>
              match (match er with
                     | '+' :: d => ('+' :: [], d)
                     | '-' :: d => ('-' :: [], d)
                     | d => ([], d)) with
              | (sg, d) =>
                let (ds, r) := takeDigits d
                if ds = [] then (['!'], er) else ('e' :: sg ++ ds, r)
            | 'E' :: er =>
              match (match er with
                     | '+' :: d => ('+' :: [], d)
                     | '-' :: d => ('-' :: [], d)
                     | d => ([], d)) with
              | (sg, d) =>
                let (ds, r) := takeDigits d
                if ds = [] then (['!'], er) else ('E' :: sg ++ ds, r)
            | _ => ([], r2)
          if expo = ['!'] then none
          else some (sign ++ ints ++ frac ++ expo, r3)

/-- Parser modes: a value, an object body (after `{`, possibly empty), the
members of a non-empty object, an array body (after `[`, possibly empty),
or the items of a non-empty array. -/
inductive JMode where
  | val : JMode
  | objBody : JMode
  | objItems (acc : List (List Char × JsonVal)) : JMode
  | arrBody : JMode
  | arrItems (acc : List JsonVal) : JMode

/-- Recursive-descent JSON value parser, fuelled. -/
def parseJson : Nat → JMode → List Char → Option (JsonVal × List Char)
  | 0, _, _ => none
  | fuel + 1, JMode.val, l =>
    match skipJsonWs l with
    | [] => none
    | c :: rest =>
      if c = '"' then
        (parseJsonStr (rest.length + 1) rest).map (fun p => (JsonVal.str p.1, p.2))
      else if c = lbrace then parseJson fuel JMode.objBody rest
      else if c = '[' then parseJson fuel JMode.arrBody rest
      else match c :: rest with
        | 't' :: 'r' :: 'u' :: 'e' :: r => some (JsonVal.bool true, r)
        | 'f' :: 'a' :: 'l' :: 's' :: 'e' :: r => some (JsonVal.bool false, r)
        | 'n' :: 'u' :: 'l' :: 'l' :: r => some (JsonVal.null, r)
        | l' => (parseJsonNum l').map (fun p => (JsonVal.num p.1, p.2))
  | fuel + 1, JMode.objBody, l =>
    match skipJsonWs l with
    | [] => none
    | c :: rest =>
      if c = rbrace then some (JsonVal.obj [], rest)
      else parseJson fuel (JMode.objItems []) (c :: rest)
  | fuel + 1, JMode.objItems acc, l =>
    match skipJsonWs l with
    | '"' :: rest =>
      match parseJsonStr (rest.length + 1) rest with
      | some (key, r1) =>
        match skipJsonWs r1 with
        | ':' :: r2 =>
          match parseJson fuel JMode.val r2 with
          | some (v, r3) =>
            match skipJsonWs r3 with
            | ',' :: r4 => parseJson fuel (JMode.objItems (acc ++ [(key, v)])) r4
            | c :: r4 =>
              if c = rbrace then some (JsonVal.obj (acc ++ [(key, v)]), r4) else none
            | [] => none
          | none => none
        | _ => none
      | none => none
    | _ => none
  | fuel + 1, JMode.arrBody, l =>
    match skipJsonWs l with
    | [] => none
    | c :: rest =>
      if c = ']' then some (JsonVal.arr [], rest)
      else parseJson fuel (JMode.arrItems []) (c :: rest)
  | fuel + 1, JMode.arrItems acc, l =>
    match parseJson fuel JMode.val l with
    | some (v, r1) =>
      match skipJsonWs r1 with
      | ',' :: r2 => parseJson fuel (JMode.arrItems (acc ++ [v])) r2
      | c :: r2 => if c = ']' then some (JsonVal.arr (acc ++ [v]), r2) else none
      | [] => none
    | none => none

/-- Model of `JSON.parse`: one JSON value with only whitespace around it. -/
def jsonParseL (l : List Char) : Option JsonVal :=
  match parseJson (4 * l.length + 16) JMode.val l with
  | some (v, rest) => if skipJsonWs rest = [] then some v else none
  | none => none

def jsonParse (s : String) : Option JsonVal := jsonParseL s.data

/-- The character predicate of the regex `\s` used to skip whitespace
between scanned spans. -/
def jsRegexWs (c : Char) : Bool :=
  c = ' ' ∨ c = '\t' ∨ c = '\n' ∨ c = '\r' ∨ c = '\x0b' ∨ c = '\x0c'

/-- The whitespace skip `while (/\s/.test(s[position])) position++`. -/
def skipWsIdx (arr : List Char) (pos : Nat) : Nat :=
  match arr with
  | [] => pos
  | c :: rest =>
    match pos with
    | 0 => if jsRegexWs c then skipWsIdx rest 1 else 0
    | p + 1 => (skipWsIdx rest p) + 1

/-- The depth-tracking span scan (`for (let i = position; ...)`): walks the
characters maintaining brace and bracket counters, an in-string flag and an
escape flag; an escaped character is consumed blindly, a backslash arms the
escape flag, an unescaped quote toggles the string flag, and depth is
counted only outside strings.  Returns `endPos` (one past the closing
brace/bracket at which both depths return to zero), absolute in the scanned
text, or `none` (`endPos = -1`). -/
def scanSpan : List Char → Int → Int → Bool → Bool → Nat → Option Nat
  | [], _, _, _, _, _ => none
  | c :: rest, brace, bracket, inStr, esc, i =>
    if esc then scanSpan rest brace bracket inStr false (i + 1)
    else if c = '\\' then scanSpan rest brace bracket inStr true (i + 1)
    else if c = '"' then scanSpan rest brace bracket (!inStr) false (i + 1)
    else if inStr then scanSpan rest brace bracket inStr false (i + 1)
    else
      let brace' := if c = lbrace then brace + 1 else if c = rbrace then brace - 1 else brace
      let bracket' := if c = '[' then bracket + 1 else if c = ']' then bracket - 1 else bracket
      if brace' = 0 ∧ bracket' = 0 ∧ (c = rbrace ∨ c = ']') then some (i + 1)
      else scanSpan rest brace' bracket' inStr false (i + 1)

/-- Embeds `String.prototype.trim` over the character list. -/
def trimChars (l : List Char) : List Char :=
  ((l.dropWhile jsRegexWs).reverse.dropWhile jsRegexWs).reverse

/-- Split on newline characters (`split('\n')`). -/
def splitNl : List Char → List (List Char)
  | [] => [[]]
  | c :: rest =>
    let r := splitNl rest
    if c = '\n' then [] :: r
    else match r with
      | h :: t => (c :: h) :: t
      | [] => [[c]]

/-- Embeds `s.indexOf(c, start)`. -/
def idxOfFrom (arr : List Char) (c : Char) (start : Nat) : Option Nat :=
  ((arr.drop start).findIdx? (fun x => x = c)).map (fun i => i + start)

/-- Embeds `substring(startPos, endPos)`. -/
def sliceChars (arr : List Char) (startPos endPos : Nat) : List Char :=
  (arr.take endPos).drop startPos

/-- One candidate span per iteration of the `while (position < length)`
loop: skip whitespace, scan a span, parse it (advancing past it on success
or on an all-whitespace span), or resynchronise at the next `{`/`[` after
the current position; stop when no complete span or resync point exists. -/
def streamLoop : Nat → List Char → Nat → List JsonVal → List JsonVal
  | 0, _, _, acc => acc
  | fuel + 1, arr, pos, acc =>
    let pos := skipWsIdx arr pos
    if pos ≥ arr.length then acc
    else
      match scanSpan (arr.drop pos) 0 0 false false pos with
      | some endPos =>
        if endPos > pos then
          let jsonStr := trimChars (sliceChars arr pos endPos)
          let parsed := if jsonStr ≠ [] then some (jsonParseL jsonStr) else none
          match parsed with
          | some (some obj) => streamLoop fuel arr endPos (acc ++ [obj])
          | some none =>
            let nb := idxOfFrom arr lbrace (pos + 1)
            let nk := idxOfFrom arr '[' (pos + 1)
            let nextStart : Option Nat :=
              match nb, nk with
              | some a, some b => some (min a b)
              | some a, none => some a
              | none, some b => some b
              | none, none => none
            match nextStart with
            | some ns => if ns > pos then streamLoop fuel arr ns acc else acc
            | none => acc
          | none => streamLoop fuel arr endPos acc
        else acc
      | none => acc

/-- Spreading a parsed value into the output sequence: a top-level array is
flattened one level, anything else is a single item. -/
def flattenParsed (v : JsonVal) : List JsonVal :=
  match v with
  | JsonVal.arr xs => xs
  | v => [v]

/-- The `.json` branch of the per-file decoder: whole-file `JSON.parse`,
then the stream scan over the trimmed content, then newline splitting;
`Except.error` when all three strategies produce nothing (the caller then
logs a warning and skips the file). -/
def jsonFileObjects (content : String) : Except Unit (List JsonVal) :=
  match jsonParse content with
  | some v => Except.ok (flattenParsed v)
  | none =>
    let arr := trimChars content.data
    let streamObjs := streamLoop (arr.length + 1) arr 0 []
    if ¬ streamObjs.isEmpty then Except.ok streamObjs
    else
      let lines := (splitNl (trimChars content.data)).filter
        (fun ln => ¬ (trimChars ln).isEmpty)
      let lineObjs := lines.filterMap (fun ln => jsonParseL (trimChars ln))
      if ¬ lineObjs.isEmpty then Except.ok lineObjs
      else Except.error ()

/-- The caller's per-file `try`/`catch`: a failed file contributes no
objects and one logged warning; a decoded file contributes its objects and
no warning. -/
def decodeJsonFileLogged (content : String) : List JsonVal × List String :=
  match jsonFileObjects content with
  | Except.ok objs => (objs, [])
  | Except.error _ => ([], ["Failed to parse file"])

/-! ### The ImageSetConfiguration document model

The declarative configuration as produced by `yaml.load`, restricted to the
fields the synthesizer, parser and reconciler probe.  Possibly-missing
fields are `Option`; names compared only against strings are plain strings. -/

structure Chan where
  name : String
  minVersion : Option String
  maxVersion : Option String
  deriving DecidableEq, Repr

structure Pkg where
  name : String
  channels : Option (List Chan)
  defaultChannel : Option String
  deriving DecidableEq, Repr

structure OperatorEntry where
  catalog : Option String
  packages : Option (List Pkg)
  deriving DecidableEq, Repr

structure MirrorSec where
  operators : Option (List OperatorEntry)
  deriving DecidableEq, Repr

structure Config where
  apiVersion : Option String
  kind : Option String
  mirror : Option MirrorSec
  deriving DecidableEq, Repr

structure Selection where
  operator : String
  channel : String
  version : String
  defaultChannel : Option String
  deriving DecidableEq, Repr

/-! ### Config synthesizer (`generateImageSetConfig`) -/

/-- One package entry of the synthesized document: a single channel
constraint `\x7bname, minVersion\x7d`, and the `defaultChannel` marker exactly
when the selection's default channel is truthy and differs from the
selected channel. -/
def selectionPkg (sel : Selection) : Pkg :=
  { name := sel.operator
    channels := some [⟨sel.channel, some sel.version, none⟩]
    defaultChannel :=
      if jsTruthy sel.defaultChannel ∧ sel.defaultChannel ≠ some sel.channel
      then sel.defaultChannel else none }

/-- The synthesizer `generateImageSetConfig(catalog, version, selections)` (the document
before `yaml.dump`): one package entry per selection, in selection order. -/
def generateImageSetConfig (catalog version : String) (selections : List Selection) :
    Config :=
  let imageName := "registry.redhat.io/redhat/" ++ catalog ++ ":" ++ version
  { apiVersion := some "mirror.openshift.io/v2alpha1"
    kind := some "ImageSetConfiguration"
    mirror := some
      { operators := some
          [{ catalog := some imageName
             packages := some (selections.map selectionPkg) }] } }

/-! ### Config parser (`parseImageSetConfig`) -/

/-- Leftmost match of the literal characters `redhat/`. -/
def matchesRedhat (l : List Char) : Option (List Char) :=
  match l with
  | 'r' :: 'e' :: 'd' :: 'h' :: 'a' :: 't' :: '/' :: rest => some rest
  | _ => none

/-- The group part `([^:]+):(.+)`: split at the first colon, both groups non-empty. -/
def colonSplit : List Char → Option (List Char × List Char)
  | [] => none
  | c :: cs =>
    if c = ':' then (if cs.isEmpty then none else some ([], cs))
    else (colonSplit cs).map (fun p => (c :: p.1, p.2))

def redhatMatchAt (l : List Char) : Option (List Char × List Char) :=
  (matchesRedhat l).bind (fun rest =>
    (colonSplit rest).bind (fun p => if p.1.isEmpty then none else some p))

/-- Leftmost match of `/redhat\/([^:]+):(.+)/` over the whole string. -/
def redhatScan : List Char → Option (List Char × List Char)
  | [] => none
  | c :: cs =>
    match redhatMatchAt (c :: cs) with
    | some r => some r
    | none => redhatScan cs

def catalogMatch (s : String) : Option (String × String) :=
  (redhatScan s.data).map (fun p => (p.1.asString, p.2.asString))

structure ParseResult where
  catalog : String
  version : String
  catalogImage : String
  packages : List Selection
  deriving DecidableEq, Repr

/-- The fallback chain `channel.minVersion || channel.maxVersion || ''`. -/
def chanVersionOf (c : Chan) : String :=
  if jsTruthy c.minVersion then c.minVersion.getD ""
  else if jsTruthy c.maxVersion then c.maxVersion.getD ""
  else ""

/-- The selection record extracted from one package entry, or `none` when
its `channels` is missing, not an array, or empty. -/
def pkgSelection (p : Pkg) : Option Selection :=
  match p.channels with
  | some (c :: _) =>
    some { operator := p.name
           channel := c.name
           version := chanVersionOf c
           defaultChannel := if jsTruthy p.defaultChannel then p.defaultChannel else none }
  | _ => none

/-- The parser's inner package loop: retained selections are appended in
order, entries without a usable `channels` array contribute nothing. -/
def collectPkgs (acc : List Selection) (pkgs : List Pkg) : List Selection :=
  pkgs.foldl (fun a p =>
    match pkgSelection p with
    | some sel => a ++ [sel]
    | none => a) acc

/-- The parser's outer loop over `mirror.operators`. -/
def collectSelections (operators : List OperatorEntry) : List Selection :=
  operators.foldl (fun a op =>
    match op.packages with
    | some pkgs => collectPkgs a pkgs
    | none => a) []

/-- The parser `parseImageSetConfig(configContent)` on the loaded document. -/
def parseImageSetConfig (config : Config) : Except String ParseResult :=
  if config.kind ≠ some "ImageSetConfiguration" then
    Except.error "Invalid ImageSetConfiguration file"
  else
    let operators := (config.mirror.bind (fun m => m.operators)).getD []
    if operators.isEmpty then Except.error "No operators found in configuration"
    else
      let firstOperator := operators.headD ⟨none, none⟩
      let catalogImage := firstOperator.catalog.getD ""
      let cm := catalogMatch catalogImage
      let catalogName := (cm.map (fun p => p.1)).getD ""
      let catalogVersion := (cm.map (fun p => p.2)).getD ""
      let packages := collectSelections operators
      Except.ok ⟨catalogName, catalogVersion, catalogImage, packages⟩

/-! ### Config reconciler (`POST /api/update-imageset-config`)

The request body is destructured as
`{ originalConfig, updates, removeOperators, addDefaultChannels, setDefaultChannelParam }`;
no other field of the body is read.  Each `for` pass of the handler is a
per-package transformation; a JavaScript `TypeError` (accessing
`pkg.channels[0]` / `.some` / `.push` on a missing `channels`) aborts the
whole request, embedded as `Except.error`. -/

/-- A loop `for (const x of l)` with a body that can throw, collecting per-item
results: stops at the first thrown error. -/
def mapErr {α β : Type} (f : α → Except String β) : List α → Except String (List β)
  | [] => Except.ok []
  | x :: xs =>
    match f x with
    | Except.error e => Except.error e
    | Except.ok y => (mapErr f xs).map (fun l => y :: l)

/-- A nested `for` loop threading one mutable value, stopping at the first
thrown error. -/
def foldErr {α β : Type} (f : α → β → Except String β) : List α → β → Except String β
  | [], b => Except.ok b
  | x :: xs, b =>
    match f x b with
    | Except.error e => Except.error e
    | Except.ok b2 => foldErr f xs b2

structure UpdateReq where
  name : String
  channel : String
  originalChannel : Option String
  newVersion : Option String
  deriving DecidableEq, Repr

structure DefaultAddReq where
  operator : String
  channel : String
  version : Option String
  deriving DecidableEq, Repr

structure DefaultParamReq where
  operator : String
  defaultChannel : Option String
  deriving DecidableEq, Repr

/-- The lookup `updates.find(u => u.name === pkg.name && (u.originalChannel ?
u.originalChannel === pkg.channels[0]?.name : u.channel === pkg.channels[0]?.name))`;
evaluating the callback for a name-matching `u` dereferences
`pkg.channels[0]` and throws when `channels` is missing. -/
def findUpdate (updates : List UpdateReq) (pkg : Pkg) :
    Except String (Option UpdateReq) :=
  match pkg.channels with
  | none =>
    if updates.any (fun u => u.name = pkg.name) then
      Except.error "TypeError: pkg.channels is undefined"
    else Except.ok none
  | some l =>
    let ch0name : Option String := l.head?.map (fun c => c.name)
    Except.ok (updates.find? (fun u =>
      u.name = pkg.name ∧
      (if jsTruthy u.originalChannel then u.originalChannel = ch0name
       else some u.channel = ch0name)))

/-- The version-update / channel-replacement pass over one package
(guarded by `update && pkg.channels && pkg.channels.length > 0`): rewrite
the first constraint's name on a replacement, set its `minVersion` to the
requested version, and delete any `maxVersion`. -/
def applyUpdate (updates : List UpdateReq) (pkg : Pkg) : Except String Pkg :=
  (findUpdate updates pkg).map (fun found =>
    match found with
    | none => pkg
    | some u =>
      match pkg.channels with
      | some (c0 :: rest) =>
        let c0' : Chan :=
          { name := if jsTruthy u.originalChannel then u.channel else c0.name
            minVersion := u.newVersion
            maxVersion := none }
        { pkg with channels := some (c0' :: rest) }
      | _ => pkg)

/-- The `removeOperators` filter followed by the update pass, per operator. -/
def opRemoveAndUpdate (removeOps : Option (List String)) (updates : List UpdateReq)
    (op : OperatorEntry) : Except String OperatorEntry :=
  match op.packages with
  | none => Except.ok op
  | some pkgs =>
    let pkgs1 : List Pkg :=
      match removeOps with
      | some rs =>
        if ¬ rs.isEmpty then pkgs.filter (fun p => ¬ rs.contains p.name) else pkgs
      | none => pkgs
    (mapErr (applyUpdate updates) pkgs1).map (fun l => { op with packages := some l })

/-- Mutate the first channel whose name matches, setting `minVersion` and
deleting `maxVersion` (`pkg.channels.find(...)` returns the first match). -/
def setFirstChan (l : List Chan) (nm : String) (v : Option String) : List Chan :=
  match l with
  | [] => []
  | c :: rest =>
    if c.name = nm then { c with minVersion := v, maxVersion := none } :: rest
    else c :: setFirstChan rest nm v

/-- One `addDefaultChannels` entry applied to one package: append the
default channel when absent, otherwise bump the existing constraint; then
drop a `defaultChannel` marker equal to the added channel. -/
def applyOneAdd (dA : DefaultAddReq) (pkg : Pkg) : Except String Pkg :=
  if dA.operator = pkg.name then
    match pkg.channels with
    | none => Except.error "TypeError: pkg.channels is undefined"
    | some l =>
      let hasChannel := l.any (fun ch => ch.name = dA.channel)
      let l' := if ¬ hasChannel then l ++ [⟨dA.channel, dA.version, none⟩]
                else setFirstChan l dA.channel dA.version
      let marker :=
        if (l'.any (fun ch => ch.name = dA.channel)) ∧ pkg.defaultChannel = some dA.channel
        then none else pkg.defaultChannel
      Except.ok { pkg with channels := some l', defaultChannel := marker }
  else Except.ok pkg

def applyAdds (adds : Option (List DefaultAddReq)) (pkg : Pkg) : Except String Pkg :=
  match adds with
  | none => Except.ok pkg
  | some l => foldErr applyOneAdd l pkg

def opAdds (adds : Option (List DefaultAddReq)) (op : OperatorEntry) :
    Except String OperatorEntry :=
  match op.packages with
  | none => Except.ok op
  | some pkgs => (mapErr (applyAdds adds) pkgs).map (fun l => { op with packages := some l })

/-- One `setDefaultChannelParam` entry applied to one package: set the
marker only when the named default channel is not an explicit constraint. -/
def applyOneParam (dP : DefaultParamReq) (pkg : Pkg) : Except String Pkg :=
  if dP.operator = pkg.name then
    match pkg.channels with
    | none => Except.error "TypeError: pkg.channels is undefined"
    | some l =>
      if ¬ l.any (fun ch => some ch.name = dP.defaultChannel) then
        Except.ok { pkg with defaultChannel := dP.defaultChannel }
      else Except.ok pkg
  else Except.ok pkg

def applyParams (ps : Option (List DefaultParamReq)) (pkg : Pkg) : Except String Pkg :=
  match ps with
  | none => Except.ok pkg
  | some l => foldErr applyOneParam l pkg

def opParams (ps : Option (List DefaultParamReq)) (op : OperatorEntry) :
    Except String OperatorEntry :=
  match op.packages with
  | none => Except.ok op
  | some pkgs => (mapErr (applyParams ps) pkgs).map (fun l => { op with packages := some l })

/-- The final cleanup pass: a truthy `defaultChannel` marker that is also an
explicit channel constraint is deleted. -/
def cleanupPkg (pkg : Pkg) : Pkg :=
  if jsTruthy pkg.defaultChannel then
    match pkg.channels with
    | some l =>
      if l.any (fun ch => some ch.name = pkg.defaultChannel) then
        { pkg with defaultChannel := none }
      else pkg
    | none => pkg
  else pkg

def cleanupOp (op : OperatorEntry) : OperatorEntry :=
  match op.packages with
  | some pkgs => { op with packages := some (pkgs.map cleanupPkg) }
  | none => op

/-- The keep test `op.packages && Array.isArray(op.packages) && op.packages.length > 0`. -/
def opKeep (op : OperatorEntry) : Bool :=
  match op.packages with
  | some (_ :: _) => true
  | _ => false

/-- The `/api/update-imageset-config` handler on the loaded document and
the destructured request fields (the body's `replaceWithDefaultChannels`,
when a client sends one, is not among them and cannot influence the
result). -/
def updateImageSetConfig (config : Config) (updates : List UpdateReq)
    (removeOps : Option (List String)) (adds : Option (List DefaultAddReq))
    (ps : Option (List DefaultParamReq)) : Except String Config :=
  if config.kind ≠ some "ImageSetConfiguration" then
    Except.error "Invalid ImageSetConfiguration file"
  else
    match mapErr (opRemoveAndUpdate removeOps updates)
        ((config.mirror.bind (fun m => m.operators)).getD []) with
    | Except.error e => Except.error e
    | Except.ok ops1 =>
      match mapErr (opAdds adds) ops1 with
      | Except.error e => Except.error e
      | Except.ok ops2 =>
        match mapErr (opParams ps) ops2 with
        | Except.error e => Except.error e
        | Except.ok ops3 =>
          match config.mirror with
          | none => Except.error "TypeError: config.mirror is undefined"
          | some m =>
            Except.ok { config with
              mirror := some { m with
                operators := some (((ops3.map cleanupOp)).filter opKeep) } }

/-! ### Spec-facing observations -/

/-- The key invariant of §3 of the design, restricted to a truthy marker:
a package entry does not carry both a non-empty `defaultChannel` marker and
a channel constraint of that very name. -/
def pkgMarkerClean (p : Pkg) : Bool :=
  match p.defaultChannel with
  | some d =>
    if d ≠ "" then ¬ (p.channels.getD []).any (fun ch => ch.name = d)
    else true
  | none => true

def configMarkersClean (c : Config) : Bool :=
  ((c.mirror.bind (fun m => m.operators)).getD []).all
    (fun op => (op.packages.getD []).all pkgMarkerClean)

/-- All package entries reachable in a document (the claim-facing reading
of "package entry": any member of any operator's `packages`). -/
def configPkgs (c : Config) : List Pkg :=
  ((c.mirror.bind (fun m => m.operators)).getD []).flatMap
    (fun op => op.packages.getD [])

/-- The literal reading of the claimed invariant, with no truthiness
proviso: a package entry does not have both a `defaultChannel` marker
field and a channel constraint whose name equals that marker. -/
def pkgMarkerCleanStated (p : Pkg) : Bool :=
  match p.defaultChannel with
  | some d => ¬ (p.channels.getD []).any (fun ch => ch.name = d)
  | none => true

/-! ## Lemmas about the sort and the comparator -/

theorem insertLe_perm {α : Type} (le : α → α → Bool) (x : α) (l : List α) :
    List.Perm (insertLe le x l) (x :: l) := by
  induction l with
  | nil => simp [insertLe]
  | cons y ys ih =>
    by_cases h : le x y = true
    · simp [insertLe, h]
    · simp only [insertLe, h, Bool.false_eq_true, if_false]
      exact List.Perm.trans (List.Perm.cons y ih) (List.Perm.swap x y ys)

theorem sortLe_perm {α : Type} (le : α → α → Bool) (l : List α) :
    List.Perm (sortLe le l) l := by
  induction l with
  | nil => simp [sortLe]
  | cons x xs ih =>
    exact List.Perm.trans (insertLe_perm le x (sortLe le xs)) (List.Perm.cons x ih)

theorem insertLe_pairwise {α : Type} (le : α → α → Bool)
    (htot : ∀ a b, le a b = true ∨ le b a = true)
    (htrans : ∀ a b c, le a b = true → le b c = true → le a c = true)
    (x : α) (l : List α) (hl : l.Pairwise (fun a b => le a b = true)) :
    (insertLe le x l).Pairwise (fun a b => le a b = true) := by
  induction l with
  | nil => simp [insertLe]
  | cons y ys ih =>
    rcases List.pairwise_cons.mp hl with ⟨hy, hys⟩
    by_cases h : le x y = true
    · simp only [insertLe, h, if_true]
      refine List.pairwise_cons.mpr ⟨?_, hl⟩
      intro b hb
      rcases List.mem_cons.mp hb with rfl | hb
      · exact h
      · exact htrans _ _ _ h (hy _ hb)
    · simp only [insertLe, h, Bool.false_eq_true, if_false]
      refine List.pairwise_cons.mpr ⟨?_, ih hys⟩
      intro b hb
      have hperm := insertLe_perm le x ys
      have hb' : b ∈ x :: ys := hperm.mem_iff.mp hb
      rcases List.mem_cons.mp hb' with rfl | hb'
      · rcases htot b y with hxy | hyx
        · exact absurd hxy h
        · exact hyx
      · exact hy _ hb'

theorem sortLe_pairwise {α : Type} (le : α → α → Bool)
    (htot : ∀ a b, le a b = true ∨ le b a = true)
    (htrans : ∀ a b c, le a b = true → le b c = true → le a c = true)
    (l : List α) : (sortLe le l).Pairwise (fun a b => le a b = true) := by
  induction l with
  | nil => simp [sortLe]
  | cons x xs ih => exact insertLe_pairwise le htot htrans x (sortLe le xs) ih

theorem sortLe_nodup {α : Type} (le : α → α → Bool) (l : List α) (h : l.Nodup) :
    (sortLe le l).Nodup := ((sortLe_perm le l).nodup_iff).mpr h

theorem verDescLe_total (a b : String) :
    verDescLe a b = true ∨ verDescLe b a = true := by
  unfold verDescLe
  rcases le_total (verKey a) (verKey b) with h | h
  · right; exact decide_eq_true h
  · left; exact decide_eq_true h

theorem verDescLe_trans (a b c : String) :
    verDescLe a b = true → verDescLe b c = true → verDescLe a c = true := by
  unfold verDescLe
  intro h1 h2
  exact decide_eq_true (le_trans (of_decide_eq_true h2) (of_decide_eq_true h1))

/-! ## Claims -/

/-- Claim C5, counterexample: a well-kinded document with one operator
entry and an empty `packages` list contains no package entries, yet the
parser succeeds (with an empty selection list) instead of failing — the
"or no package entries are present" half of the claimed iff is false. -/
theorem claim_c5_counterexample :
    parseImageSetConfig
        ⟨none, some "ImageSetConfiguration", some ⟨some [⟨some "c", some []⟩]⟩⟩
      = Except.ok ⟨"", "", "c", []⟩ ∧
    configPkgs ⟨none, some "ImageSetConfiguration", some ⟨some [⟨some "c", some []⟩]⟩⟩
      = [] :=
  ⟨rfl, rfl⟩

/-- Claim C5 (amended): `parseImageSetConfig` fails if and only if the
document's `kind` is not `ImageSetConfiguration` or the `mirror.operators`
list is empty — not "no package entries"; in the failure case the
`Except.error` carries no partial result. -/
theorem claim_c5 (cfg : Config) :
    (∃ e, parseImageSetConfig cfg = Except.error e) ↔
      (cfg.kind ≠ some "ImageSetConfiguration" ∨
        ((cfg.mirror.bind (fun m => m.operators)).getD []).isEmpty = true) := by
  unfold parseImageSetConfig
  by_cases hk : cfg.kind = some "ImageSetConfiguration"
  · by_cases he : ((cfg.mirror.bind (fun m => m.operators)).getD []).isEmpty = true
    · simp [hk, he]
    · simp [hk, he]
  · simp [hk]

theorem collectPkgs_eq (pkgs : List Pkg) (acc : List Selection) :
    collectPkgs acc pkgs = acc ++ pkgs.filterMap pkgSelection := by
  induction pkgs generalizing acc with
  | nil => simp [collectPkgs]
  | cons p ps ih =>
    have h1 : collectPkgs acc (p :: ps) =
        collectPkgs (match pkgSelection p with
          | some sel => acc ++ [sel]
          | none => acc) ps := rfl
    rw [h1]
    cases hp : pkgSelection p with
    | some sel =>
      simp only [hp]
      rw [ih]
      simp [List.filterMap_cons, hp]
    | none =>
      simp only [hp]
      rw [ih]
      simp [List.filterMap_cons, hp]

theorem collectSelections_eq (ops : List OperatorEntry) :
    collectSelections ops =
      ops.flatMap (fun op => (op.packages.getD []).filterMap pkgSelection) := by
  have aux : ∀ (l : List OperatorEntry) (acc : List Selection),
      l.foldl (fun a op =>
        match op.packages with
        | some pkgs => collectPkgs a pkgs
        | none => a) acc
        = acc ++ l.flatMap (fun op => (op.packages.getD []).filterMap pkgSelection) := by
    intro l
    induction l with
    | nil => intro acc; simp
    | cons op rest ih =>
      intro acc
      rw [List.foldl_cons]
      cases hp : op.packages with
      | some pkgs =>
        simp only [hp]
        rw [collectPkgs_eq, ih]
        simp [hp]
      | none =>
        simp only [hp]
        rw [ih]
        simp [hp]
  unfold collectSelections
  exact aux ops []

/-- Claim C10: for a well-kinded document with a non-empty operator list,
the parser succeeds; package entries whose `channels` field is missing or
empty are silently omitted, and each retained entry's selection takes its
version from the first constraint's `minVersion`, falling back to
`maxVersion`, falling back to `""`. -/
theorem claim_c10 (cfg : Config)
    (hk : cfg.kind = some "ImageSetConfiguration")
    (hne : ((cfg.mirror.bind (fun m => m.operators)).getD []).isEmpty = false) :
    ∃ r, parseImageSetConfig cfg = Except.ok r ∧
      r.packages = ((cfg.mirror.bind (fun m => m.operators)).getD []).flatMap
        (fun op => (op.packages.getD []).filterMap pkgSelection) ∧
      (∀ p : Pkg, (p.channels = none ∨ p.channels = some []) → pkgSelection p = none) ∧
      (∀ (p : Pkg) (c : Chan) (cs : List Chan), p.channels = some (c :: cs) →
        pkgSelection p = some
          { operator := p.name
            channel := c.name
            version :=
              if jsTruthy c.minVersion then c.minVersion.getD ""
              else if jsTruthy c.maxVersion then c.maxVersion.getD "" else ""
            defaultChannel :=
              if jsTruthy p.defaultChannel then p.defaultChannel else none }) := by
  unfold parseImageSetConfig
  simp only [hk, hne, ne_eq, not_true_eq_false, if_false, Bool.false_eq_true]
  refine ⟨_, rfl, ?_, ?_, ?_⟩
  · exact collectSelections_eq _
  · intro p hp
    rcases hp with hp | hp <;> simp [pkgSelection, hp]
  · intro p c cs hp
    simp [pkgSelection, hp, chanVersionOf]

/-- Claim C10, witness: a document with one good entry and two bad ones
(missing and empty `channels`) parses to just the good selection. -/
theorem claim_c10_witness :
    ∃ r, parseImageSetConfig
        ⟨none, some "ImageSetConfiguration", some ⟨some
          [⟨some "img", some
            [⟨"good", some [⟨"ch", some "v1", none⟩], none⟩,
             ⟨"bad1", none, none⟩,
             ⟨"bad2", some [], none⟩]⟩]⟩⟩
      = Except.ok r ∧ r.packages = [⟨"good", "ch", "v1", none⟩] := by
  obtain ⟨r, h1, h2, _, _⟩ := claim_c10
    ⟨none, some "ImageSetConfiguration", some ⟨some
      [⟨some "img", some
        [⟨"good", some [⟨"ch", some "v1", none⟩], none⟩,
         ⟨"bad1", none, none⟩,
         ⟨"bad2", some [], none⟩]⟩]⟩⟩ rfl rfl
  refine ⟨r, h1, ?_⟩
  rw [h2]
  rfl

theorem asString_data (s : String) : s.data.asString = s := by
  cases s with
  | mk d => rfl

theorem colonSplit_append (g v : List Char) (hg : ':' ∉ g) (hv : v ≠ []) :
    colonSplit (g ++ ':' :: v) = some (g, v) := by
  induction g with
  | nil =>
    simp [colonSplit, hv]
  | cons c cs ih =>
    have hc : c ≠ ':' := fun h => hg (h ▸ List.mem_cons_self c cs)
    have hcs : ':' ∉ cs := fun h => hg (List.mem_cons_of_mem c h)
    simp [colonSplit, hc, ih hcs]

theorem redhatScan_cons (c : Char) (cs : List Char) :
    redhatScan (c :: cs) = match redhatMatchAt (c :: cs) with
      | some r => some r
      | none => redhatScan cs := rfl

/-- On a synthesized image reference whose catalog name is non-empty and
colon-free and whose version is non-empty, the parser's regex recovers
exactly the catalog name and version. -/
theorem catalogMatch_image (cat ver : String)
    (hcat : cat.data ≠ []) (hcolon : ':' ∉ cat.data) (hver : ver.data ≠ []) :
    catalogMatch ("registry.redhat.io/redhat/" ++ cat ++ ":" ++ ver) = some (cat, ver) := by
  unfold catalogMatch
  have hd : ("registry.redhat.io/redhat/" ++ cat ++ ":" ++ ver).data
      = "registry.redhat.io/redhat/".data ++ (cat.data ++ ':' :: ver.data) := by
    simp [String.data_append]
  rw [hd]
  have hskip : redhatScan ("registry.redhat.io/redhat/".data ++ (cat.data ++ ':' :: ver.data))
      = redhatScan ('r' :: 'e' :: 'd' :: 'h' :: 'a' :: 't' :: '/' ::
          (cat.data ++ ':' :: ver.data)) := rfl
  rw [hskip, redhatScan_cons]
  have hra : redhatMatchAt ('r' :: 'e' :: 'd' :: 'h' :: 'a' :: 't' :: '/' ::
      (cat.data ++ ':' :: ver.data)) = some (cat.data, ver.data) := by
    unfold redhatMatchAt
    have hm : matchesRedhat ('r' :: 'e' :: 'd' :: 'h' :: 'a' :: 't' :: '/' ::
        (cat.data ++ ':' :: ver.data)) = some (cat.data ++ ':' :: ver.data) := rfl
    rw [hm, Option.some_bind, colonSplit_append _ _ hcolon hver]
    simp [List.isEmpty_iff, hcat]
  rw [hra]
  simp [asString_data]

theorem pkgSelection_selectionPkg (sel : Selection) (hv : sel.version ≠ "")
    (hdc : ∀ d, sel.defaultChannel = some d → d ≠ "" ∧ d ≠ sel.channel) :
    pkgSelection (selectionPkg sel) = some sel := by
  cases sel with
  | mk op ch v dc =>
    cases dc with
    | none => simp [pkgSelection, selectionPkg, chanVersionOf, jsTruthy, hv]
    | some d =>
      obtain ⟨hd1, hd2⟩ := hdc d rfl
      simp [pkgSelection, selectionPkg, chanVersionOf, jsTruthy, hv, hd1, hd2]

theorem filterMap_pkgSelection_map (sels : List Selection)
    (hsel : ∀ sel ∈ sels, sel.version ≠ "" ∧
      ∀ d, sel.defaultChannel = some d → d ≠ "" ∧ d ≠ sel.channel) :
    (sels.map selectionPkg).filterMap pkgSelection = sels := by
  induction sels with
  | nil => rfl
  | cons s ss ih =>
    obtain ⟨hv, hdc⟩ := hsel s (List.mem_cons_self s ss)
    simp [List.filterMap_cons, pkgSelection_selectionPkg s hv hdc,
      ih (fun x hx => hsel x (List.mem_cons_of_mem s hx))]

/-- Claim C2, counterexample: with a catalog name containing a colon
(`"a:b"`), the synthesized reference `registry.redhat.io/redhat/a:b:1`
parses back with catalog `"a"` and version `"b:1"`, not the original
catalog name and version — the regex `redhat\/([^:]+):(.+)` splits at the
first colon. -/
theorem claim_c2_counterexample :
    parseImageSetConfig (generateImageSetConfig "a:b" "1" [⟨"x", "c", "v", none⟩]) =
      Except.ok ⟨"a", "b:1", "registry.redhat.io/redhat/a:b:1", [⟨"x", "c", "v", none⟩]⟩ ∧
    ("a" : String) ≠ "a:b" :=
  ⟨rfl, by decide⟩

/-- Claim C2 (amended): the synthesize/parse round trip returns exactly the
original selections, catalog name and version, provided additionally that
the catalog name is non-empty and contains no colon, the catalog version
is non-empty, and each selection's `defaultChannel`, when present, is
non-empty (and, as the claim already requires, differs from its channel). -/
theorem claim_c2 (cat ver : String) (sels : List Selection)
    (hcat : cat ≠ "") (hcolon : ':' ∉ cat.data) (hver : ver ≠ "")
    (_hne : sels ≠ [])
    (hsel : ∀ sel ∈ sels, sel.operator ≠ "" ∧ sel.channel ≠ "" ∧ sel.version ≠ "" ∧
      ∀ d, sel.defaultChannel = some d → d ≠ "" ∧ d ≠ sel.channel) :
    parseImageSetConfig (generateImageSetConfig cat ver sels) =
      Except.ok ⟨cat, ver, "registry.redhat.io/redhat/" ++ cat ++ ":" ++ ver, sels⟩ := by
  have hcat' : cat.data ≠ [] := by
    intro h
    apply hcat
    cases cat with
    | mk d => rw [show d = ([] : List Char) from h]
  have hver' : ver.data ≠ [] := by
    intro h
    apply hver
    cases ver with
    | mk d => rw [show d = ([] : List Char) from h]
  unfold generateImageSetConfig parseImageSetConfig
  simp [collectSelections_eq, catalogMatch_image cat ver hcat' hcolon hver',
    filterMap_pkgSelection_map sels
      (fun sel hs => ⟨(hsel sel hs).2.2.1, (hsel sel hs).2.2.2⟩)]

/-- Claim C2, witness: a concrete one-selection round trip. -/
theorem claim_c2_witness :
    parseImageSetConfig (generateImageSetConfig "cat" "v4.17"
        [⟨"op1", "beta", "v1", some "stable"⟩]) =
      Except.ok ⟨"cat", "v4.17", "registry.redhat.io/redhat/" ++ "cat" ++ ":" ++ "v4.17",
        [⟨"op1", "beta", "v1", some "stable"⟩]⟩ := by
  have hsel : ∀ sel ∈ [(⟨"op1", "beta", "v1", some "stable"⟩ : Selection)],
      sel.operator ≠ "" ∧ sel.channel ≠ "" ∧ sel.version ≠ "" ∧
      ∀ d, sel.defaultChannel = some d → d ≠ "" ∧ d ≠ sel.channel := by
    intro sel hs
    rw [List.mem_singleton] at hs
    subst hs
    refine ⟨by decide, by decide, by decide, ?_⟩
    intro d hd
    injection hd with hd2
    subst hd2
    exact ⟨by decide, by decide⟩
  exact claim_c2 "cat" "v4.17" _ (by decide) (by decide) (by decide) (by decide) hsel

theorem cleanupPkg_clean (p : Pkg) : pkgMarkerClean (cleanupPkg p) = true := by
  cases p with
  | mk nm chs dc =>
    cases dc with
    | none => simp [cleanupPkg, pkgMarkerClean, jsTruthy]
    | some d =>
      by_cases hd : d = ""
      · subst hd
        simp [cleanupPkg, pkgMarkerClean, jsTruthy]
      · cases chs with
        | none => simp [cleanupPkg, pkgMarkerClean, jsTruthy, hd]
        | some l =>
          by_cases ha : ∃ ch ∈ l, ch.name = d
          · simp [cleanupPkg, pkgMarkerClean, jsTruthy, hd, ha]
          · simp [cleanupPkg, pkgMarkerClean, jsTruthy, hd, ha]

theorem cleanupOp_clean (op : OperatorEntry) :
    ∀ pkg ∈ (cleanupOp op).packages.getD [], pkgMarkerClean pkg = true := by
  unfold cleanupOp
  cases hp : op.packages with
  | none => simp [hp]
  | some pkgs =>
    intro pkg hpkg
    simp only [Option.getD_some] at hpkg
    rcases List.mem_map.mp hpkg with ⟨q, _, rfl⟩
    exact cleanupPkg_clean q

/-- Claim C1, counterexample: with a package entry carrying the falsy
marker `defaultChannel: ""` together with a channel constraint named `""`,
the final cleanup pass (`if (pkg.defaultChannel && ...)`) skips the entry,
so the produced document still has a package entry whose marker field
equals one of its constraint names. -/
theorem claim_c1_counterexample :
    updateImageSetConfig
        ⟨none, some "ImageSetConfiguration", some ⟨some [⟨some "img", some
          [⟨"p", some [⟨"", some "v", none⟩], some ""⟩]⟩]⟩⟩ [] none none none =
      Except.ok ⟨none, some "ImageSetConfiguration", some ⟨some [⟨some "img", some
        [⟨"p", some [⟨"", some "v", none⟩], some ""⟩]⟩]⟩⟩ ∧
    (configPkgs ⟨none, some "ImageSetConfiguration", some ⟨some [⟨some "img", some
        [⟨"p", some [⟨"", some "v", none⟩], some ""⟩]⟩]⟩⟩).all pkgMarkerCleanStated
      = false :=
  ⟨rfl, rfl⟩

/-- Claim C1 (amended): whenever the update operation succeeds, the
produced document contains no package entry that has both a **non-empty**
`defaultChannel` marker and a channel constraint whose name equals that
marker (the cleanup pass runs only for truthy markers). -/
theorem claim_c1 (cfg : Config) (updates : List UpdateReq)
    (removeOps : Option (List String)) (adds : Option (List DefaultAddReq))
    (ps : Option (List DefaultParamReq)) (out : Config)
    (h : updateImageSetConfig cfg updates removeOps adds ps = Except.ok out) :
    configMarkersClean out = true := by
  unfold updateImageSetConfig at h
  repeat' split at h
  any_goals simp only [reduceCtorEq] at h
  injection h with h
  subst h
  unfold configMarkersClean
  rw [List.all_eq_true]
  intro op hop
  simp only [Option.some_bind, Option.getD_some] at hop
  rcases List.mem_map.mp (List.mem_filter.mp hop).1 with ⟨op3, _, rfl⟩
  rw [List.all_eq_true]
  intro pkg hpkg
  exact cleanupOp_clean op3 pkg hpkg

/-- Claim C1, witness: a run whose cleanup deletes a redundant marker;
the produced document satisfies the invariant. -/
theorem claim_c1_witness :
    configMarkersClean ⟨none, some "ImageSetConfiguration", some ⟨some [⟨some "img", some
      [⟨"p", some [⟨"beta", some "v1", none⟩], none⟩]⟩]⟩⟩ = true :=
  claim_c1 ⟨none, some "ImageSetConfiguration", some ⟨some [⟨some "img", some
      [⟨"p", some [⟨"beta", some "v1", none⟩], some "beta"⟩]⟩]⟩⟩ [] none none none _ rfl

/-- Claim C6: the request body destructuring of
`/api/update-imageset-config` does not include `replaceWithDefaultChannels`
(which the web client does send for the "Replace" option), so a package on
channel `beta` with default channel `stable` at latest `v5` is returned
unchanged — its channel-constraint list is NOT replaced by
`[{stable, minVersion v5}]`. -/
theorem claim_c6 :
    updateImageSetConfig
        ⟨none, some "ImageSetConfiguration", some ⟨some [⟨some "img", some
          [⟨"foo", some [⟨"beta", some "v1", none⟩], some "stable"⟩]⟩]⟩⟩
        [] (some []) (some []) (some []) =
      Except.ok ⟨none, some "ImageSetConfiguration", some ⟨some [⟨some "img", some
        [⟨"foo", some [⟨"beta", some "v1", none⟩], some "stable"⟩]⟩]⟩⟩ ∧
    (some [⟨"beta", some "v1", none⟩] : Option (List Chan)) ≠
      some [(⟨"stable", some "v5", none⟩ : Chan)] :=
  ⟨rfl, by decide⟩

/-- Claim C7: when an `addDefaultChannels` request names the operator and
its default channel `d` is not among the package's constraints (here: a
single constraint on a different channel), the operation appends `d` as an
additional constraint at the supplied latest version, leaves the existing
constraint unchanged, and the resulting package carries no `defaultChannel`
marker (a pre-existing marker for `d` is deleted). -/
theorem claim_c7 (av cat : Option String) (nm cn d lv : String)
    (v0 mv : Option String) (mk : Option String)
    (hne : d ≠ cn) (hmk : mk = none ∨ mk = some d) :
    updateImageSetConfig
        ⟨av, some "ImageSetConfiguration", some ⟨some [⟨cat, some
          [⟨nm, some [⟨cn, v0, mv⟩], mk⟩]⟩]⟩⟩
        [] none (some [⟨nm, d, some lv⟩]) none =
      Except.ok ⟨av, some "ImageSetConfiguration", some ⟨some [⟨cat, some
        [⟨nm, some [⟨cn, v0, mv⟩, ⟨d, some lv, none⟩], none⟩]⟩]⟩⟩ := by
  rcases hmk with rfl | rfl <;>
    simp [updateImageSetConfig, opRemoveAndUpdate, applyUpdate, findUpdate,
      opAdds, applyAdds, applyOneAdd, opParams, applyParams, cleanupOp, cleanupPkg,
      opKeep, jsTruthy, setFirstChan, mapErr, foldErr, Except.map, Ne.symm hne]

/-- Claim C7, witness: the spec's scenario — selection on `beta`, default
channel `stable` with latest `v5`; the output package has the two channel
entries and no marker. -/
theorem claim_c7_witness :
    updateImageSetConfig
        ⟨none, some "ImageSetConfiguration", some ⟨some [⟨some "img", some
          [⟨"foo", some [⟨"beta", some "v1", none⟩], some "stable"⟩]⟩]⟩⟩
        [] none (some [⟨"foo", "stable", some "v5"⟩]) none =
      Except.ok ⟨none, some "ImageSetConfiguration", some ⟨some [⟨some "img", some
        [⟨"foo", some [⟨"beta", some "v1", none⟩, ⟨"stable", some "v5", none⟩],
          none⟩]⟩]⟩⟩ :=
  claim_c7 none (some "img") "foo" "beta" "stable" "v5" (some "v1") none (some "stable")
    (by decide) (Or.inr rfl)

/-- Claim C8: a package whose first (single) channel constraint matches an
update request by operator name and channel name gets `minVersion` set to
the requested version with any `maxVersion` deleted — the resulting entry
carries only a minimum-version constraint (the final cleanup pass is the
only other transformation applied). -/
theorem claim_c8 (av cat : Option String) (nm cn newv : String)
    (v0 mv mk : Option String) :
    updateImageSetConfig
        ⟨av, some "ImageSetConfiguration", some ⟨some [⟨cat, some
          [⟨nm, some [⟨cn, v0, mv⟩], mk⟩]⟩]⟩⟩
        [⟨nm, cn, none, some newv⟩] none none none =
      Except.ok ⟨av, some "ImageSetConfiguration", some ⟨some [⟨cat, some
        [cleanupPkg ⟨nm, some [⟨cn, some newv, none⟩], mk⟩]⟩]⟩⟩ := by
  simp [updateImageSetConfig, opRemoveAndUpdate, applyUpdate, findUpdate,
    opAdds, applyAdds, opParams, applyParams, cleanupOp, opKeep, jsTruthy,
    mapErr, foldErr, Except.map]

theorem pushDedup_nodup (vs : List String) (v : String) (h : vs.Nodup) :
    (pushDedup vs v).Nodup := by
  unfold pushDedup
  by_cases hc : v ∈ vs
  · simp [hc, h]
  · simp only [List.elem_eq_mem, hc, decide_False, Bool.false_eq_true, if_false]
    simp [List.nodup_append, h, hc]

theorem addEntry_nodup (bv : List (String × String)) (vs : List String) (e : CatEntry)
    (h : vs.Nodup) : (addEntry bv vs e).Nodup := by
  unfold addEntry
  by_cases h1 : e.name ≠ ""
  · rw [if_pos h1]
    by_cases h2 : (mapGet bv e.name).getD "" ≠ ""
    · rw [if_pos h2]
      exact pushDedup_nodup _ _ h
    · rw [if_neg h2]
      exact pushDedup_nodup _ _ h
  · rw [if_neg h1]
    exact h

theorem addEntries_nodup (bv : List (String × String)) (vs : List String)
    (entries : Option (List CatEntry)) (h : vs.Nodup) :
    (addEntries bv vs entries).Nodup := by
  unfold addEntries
  cases entries with
  | none => exact h
  | some es =>
    induction es generalizing vs with
    | nil => exact h
    | cons e rest ih =>
      simp only [List.foldl_cons]
      exact ih _ (addEntry_nodup bv vs e h)

theorem addChannelObj_versions_nodup (bv : List (String × String))
    (chs : List ChanData) (co : CatObj) (h : ∀ c ∈ chs, c.versions.Nodup) :
    ∀ c ∈ addChannelObj bv chs co, c.versions.Nodup := by
  unfold addChannelObj
  by_cases h0 : co.name = ""
  · simpa [h0] using h
  · simp only [h0, if_false]
    intro c hc
    rcases List.mem_map.mp hc with ⟨c0, hc0, rfl⟩
    have hc0n : c0.versions.Nodup := by
      by_cases ha : chs.any (fun c => c.name = co.name)
      · simp only [ha, if_true] at hc0
        exact h c0 hc0
      · simp only [ha, Bool.false_eq_true, if_false] at hc0
        rcases List.mem_append.mp hc0 with hm | hm
        · exact h c0 hm
        · rw [List.mem_singleton] at hm
          subst hm
          exact List.nodup_nil
    by_cases hn : c0.name = co.name
    · simp only [hn, if_true]
      exact addEntries_nodup bv _ _ hc0n
    · simp only [hn, if_false]
      exact hc0n

theorem foldChannels_versions_nodup (bv : List (String × String))
    (objs : List CatObj) (chs : List ChanData) (h : ∀ c ∈ chs, c.versions.Nodup) :
    ∀ c ∈ objs.foldl (addChannelObj bv) chs, c.versions.Nodup := by
  induction objs generalizing chs with
  | nil => exact h
  | cons o rest ih =>
    simp only [List.foldl_cons]
    exact ih _ (addChannelObj_versions_nodup bv chs o h)

/-- Claim C3 (amended): every channel's version list is weakly descending
under the collation key of the comparator and contains no duplicate
strings; strict descent fails for distinct comparator-equal strings (see
the counterexample). -/
theorem claim_c3 (objs : List CatObj) (c : ChanData)
    (hc : c ∈ (extractChannelsAndVersions objs).channels) :
    c.versions.Pairwise (fun a b => verKey b ≤ verKey a) ∧ c.versions.Nodup := by
  simp only [extractChannelsAndVersions] at hc
  rcases List.mem_map.mp hc with ⟨c0, hc0, rfl⟩
  have hnod : c0.versions.Nodup :=
    foldChannels_versions_nodup _ _ [] (by intro c hc; cases hc) c0 hc0
  constructor
  · have hp := sortLe_pairwise verDescLe verDescLe_total verDescLe_trans c0.versions
    exact hp.imp (fun hab => of_decide_eq_true hab)
  · exact sortLe_nodup _ _ hnod

theorem claim_c3_counterexample :
    (extractChannelsAndVersions
        [⟨some "olm.channel", "ch", none, some [⟨"V1"⟩, ⟨"v1"⟩], none⟩]).channels
      = [⟨"ch", ["V1", "v1"]⟩] ∧
    ("V1" : String) ≠ "v1" ∧
    verKey "V1" = verKey "v1" ∧
    ¬ (["V1", "v1"].Pairwise (fun a b => verKey b < verKey a)) :=
  ⟨by decide, by decide, by decide, by decide⟩

theorem claim_c3_witness :
    (["v3", "v2"].Pairwise (fun a b => verKey b ≤ verKey a)) ∧
      (["v3", "v2"] : List String).Nodup :=
  claim_c3
    [⟨some "olm.channel", "fast", none, some [⟨"b2"⟩, ⟨"b3"⟩], none⟩,
     ⟨some "olm.bundle", "b2", none, none, some [⟨"olm.package", some ⟨some "v2"⟩⟩]⟩,
     ⟨some "olm.bundle", "b3", none, none, some [⟨"olm.package", some ⟨some "v3"⟩⟩]⟩]
    ⟨"fast", ["v3", "v2"]⟩ (by decide)

theorem addChannelObj_names_nodup (bv : List (String × String))
    (chs : List ChanData) (co : CatObj)
    (h : (chs.map (fun c => c.name)).Nodup) :
    ((addChannelObj bv chs co).map (fun c => c.name)).Nodup := by
  unfold addChannelObj
  by_cases h0 : co.name = ""
  · simpa [h0] using h
  · simp only [h0, if_false]
    have hpres : ∀ (l : List ChanData),
        ((l.map (fun c => if c.name = co.name
            then (⟨c.name, addEntries bv c.versions co.entries⟩ : ChanData)
            else c)).map (fun c => c.name)) = l.map (fun c => c.name) := by
      intro l
      rw [List.map_map]
      apply List.map_congr_left
      intro c _
      by_cases hn : c.name = co.name
      · simp [hn]
      · simp [hn]
    rw [hpres]
    by_cases ha : chs.any (fun c => c.name = co.name)
    · simp only [ha, if_true]
      exact h
    · simp only [ha, Bool.false_eq_true, if_false]
      have hnm : co.name ∉ chs.map (fun c => c.name) := by
        intro hm
        rcases List.mem_map.mp hm with ⟨c, hc, hcn⟩
        exact ha (List.any_eq_true.mpr ⟨c, hc, decide_eq_true hcn⟩)
      simp [List.nodup_append, h, hnm]

theorem foldChannels_names_nodup (bv : List (String × String))
    (objs : List CatObj) (chs : List ChanData)
    (h : (chs.map (fun c => c.name)).Nodup) :
    (((objs.foldl (addChannelObj bv) chs)).map (fun c => c.name)).Nodup := by
  induction objs generalizing chs with
  | nil => exact h
  | cons o rest ih =>
    simp only [List.foldl_cons]
    exact ih _ (addChannelObj_names_nodup bv chs o h)

theorem find?_name_of_nodup (chs : List ChanData) (c : ChanData)
    (hn : (chs.map (fun x => x.name)).Nodup) (hc : c ∈ chs) :
    chs.find? (fun x => x.name = c.name) = some c := by
  induction chs with
  | nil => cases hc
  | cons hd tl ih =>
    rcases List.mem_cons.mp hc with rfl | hctl
    · simp [List.find?_cons]
    · rw [List.map_cons, List.nodup_cons] at hn
      have hne : hd.name ≠ c.name := by
        intro he
        exact hn.1 (he ▸ List.mem_map.mpr ⟨c, hctl, rfl⟩)
      rw [List.find?_cons]
      rw [show decide (hd.name = c.name) = false from decide_eq_false hne]
      exact ih hn.2 hctl

/-- Claim C9: when no `olm.package` object supplies a truthy
`defaultChannel`, the graph's default channel falls back to the first
channel discovered (insertion order; `none` when there are no channels),
and for every channel the effective latest version is `versions[0]`. -/
theorem claim_c9 (objs : List CatObj)
    (h : ∀ o ∈ objs, o.schema = some "olm.package" → jsTruthy o.defaultChannel = false) :
    (extractChannelsAndVersions objs).defaultChannel
        = ((extractChannelsAndVersions objs).channels.head?).map (fun c => c.name) ∧
    ∀ c ∈ (extractChannelsAndVersions objs).channels,
      latest (extractChannelsAndVersions objs) c.name = c.versions.head? := by
  constructor
  · simp only [extractChannelsAndVersions]
    cases hf : objs.find? (fun o => o.schema = some "olm.package") with
    | none => simp [hf]
    | some p =>
      have hpred' := List.find?_some hf
      have hpred : p.schema = some "olm.package" := of_decide_eq_true hpred'
      have hp := h p (List.mem_of_find?_eq_some hf) hpred
      simp [hf, hp]
  · intro c hc
    unfold latest
    have hn : (((extractChannelsAndVersions objs).channels).map (fun x => x.name)).Nodup := by
      simp only [extractChannelsAndVersions]
      rw [List.map_map]
      exact foldChannels_names_nodup _ _ [] (by simp)
    rw [find?_name_of_nodup _ c hn hc]

/-- Claim C9, witness: the spec scenario — channels `stable` then `fast`,
no package-level default; the default resolves to `stable` and the latest
of `fast` is `v3`. -/
theorem claim_c9_witness :
    (extractChannelsAndVersions
        [⟨some "olm.channel", "stable", none, some [⟨"b2"⟩, ⟨"b1"⟩], none⟩,
         ⟨some "olm.channel", "fast", none, some [⟨"b2"⟩, ⟨"b3"⟩], none⟩,
         ⟨some "olm.bundle", "b1", none, none, some [⟨"olm.package", some ⟨some "v1"⟩⟩]⟩,
         ⟨some "olm.bundle", "b2", none, none, some [⟨"olm.package", some ⟨some "v2"⟩⟩]⟩,
         ⟨some "olm.bundle", "b3", none, none, some [⟨"olm.package", some ⟨some "v3"⟩⟩]⟩]).defaultChannel
      = some "stable" ∧
    latest (extractChannelsAndVersions
        [⟨some "olm.channel", "stable", none, some [⟨"b2"⟩, ⟨"b1"⟩], none⟩,
         ⟨some "olm.channel", "fast", none, some [⟨"b2"⟩, ⟨"b3"⟩], none⟩,
         ⟨some "olm.bundle", "b1", none, none, some [⟨"olm.package", some ⟨some "v1"⟩⟩]⟩,
         ⟨some "olm.bundle", "b2", none, none, some [⟨"olm.package", some ⟨some "v2"⟩⟩]⟩,
         ⟨some "olm.bundle", "b3", none, none, some [⟨"olm.package", some ⟨some "v3"⟩⟩]⟩])
      "fast" = some "v3" := by
  have h := claim_c9
    [⟨some "olm.channel", "stable", none, some [⟨"b2"⟩, ⟨"b1"⟩], none⟩,
     ⟨some "olm.channel", "fast", none, some [⟨"b2"⟩, ⟨"b3"⟩], none⟩,
     ⟨some "olm.bundle", "b1", none, none, some [⟨"olm.package", some ⟨some "v1"⟩⟩]⟩,
     ⟨some "olm.bundle", "b2", none, none, some [⟨"olm.package", some ⟨some "v2"⟩⟩]⟩,
     ⟨some "olm.bundle", "b3", none, none, some [⟨"olm.package", some ⟨some "v3"⟩⟩]⟩]
    (by decide)
  refine ⟨?_, ?_⟩
  · rw [h.1]
    decide
  · simpa using h.2 ⟨"fast", ["v3", "v2"]⟩ (by decide)

/-- Claim C4, counterexample: for a file holding one valid JSON object
followed by unparsable garbage, the decoder recovers the one object and
skips the garbage **silently** — the per-file skip log (the only recording
mechanism, `console.warn` on total failure) stays empty, so no skip is
recorded as the claim asserts. -/
theorem claim_c4_counterexample :
    (decodeJsonFileLogged "\x7b\"a\":1\x7dgarbage").1.length = 1 ∧
    (decodeJsonFileLogged "\x7b\"a\":1\x7dgarbage").2 = [] :=
  ⟨rfl, rfl⟩

/-- Claim C4 (amended): two valid JSON objects concatenated with no
separator decode to exactly those two objects; one valid object followed
by garbage decodes to exactly that object with the garbage skipped
silently (no warning recorded); a closing brace inside a string and an
escaped quote inside a string do not perturb the depth counting. -/
theorem claim_c4 :
    decodeJsonFileLogged "\x7b\"a\":1\x7d\x7b\"b\":2\x7d" =
      ([JsonVal.obj [(['a'], JsonVal.num ['1'])],
        JsonVal.obj [(['b'], JsonVal.num ['2'])]], []) ∧
    decodeJsonFileLogged "\x7b\"a\":1\x7dgarbage" =
      ([JsonVal.obj [(['a'], JsonVal.num ['1'])]], []) ∧
    decodeJsonFileLogged "\x7b\"a\":\"\x7d\"\x7d\x7b\"b\":2\x7d" =
      ([JsonVal.obj [(['a'], JsonVal.str ['\x7d'])],
        JsonVal.obj [(['b'], JsonVal.num ['2'])]], []) ∧
    decodeJsonFileLogged "\x7b\"a\":\"\\\"\"\x7d\x7b\"b\":2\x7d" =
      ([JsonVal.obj [(['a'], JsonVal.str ['"'])],
        JsonVal.obj [(['b'], JsonVal.num ['2'])]], []) :=
  ⟨rfl, rfl, rfl, rfl⟩
